import Mathlib

/-!
# Engram Episode Store — shallow embedding

This file embeds the core of the Engram episode store (package `internal/db`,
the DuckDB-backed `Store`) together with the MCP tool handlers that call it
(package `mcp`), and proves the frozen claims about them.

Modelling conventions:

* Timestamps (`time.Time`) are modelled as `Int` instants; the Go zero value
  `time.Time{}` (tested by `IsZero`) is the instant `0`.
* `float32` values are modelled by `F32`: a finite rational or one of the
  non-finite IEEE values.  The only operations the store performs on
  embeddings are length inspection and `json.Marshal`, which fails exactly
  on non-finite values; the engine's cosine-similarity function is kept
  abstract (a parameter `sim` of `Search`).
* The embedded DuckDB engine is modelled as a list of rows plus the checks
  the declared schema imposes on the statements the store issues:
  - `embedding FLOAT[768]` is a fixed-length array column, so casting a
    serialized vector of any other length (or the empty string produced by a
    failed `json.Marshal`) raises a conversion error, and likewise for the
    `::FLOAT[768]` cast of the query vector inside `ORDER BY`;
  - `id VARCHAR PRIMARY KEY` rejects duplicate ids;
  - `metadata JSON` validates on the VARCHAR→JSON cast, so inserting a
    non-empty metadata string that is not valid JSON fails; the engine's
    JSON-syntax check is kept abstract (a parameter `jsonValid`), like its
    cosine function;
  - `ORDER BY ... DESC` places SQL NULL keys last (DuckDB's default null
    ordering is NULLS LAST).
  The driver hands scanned column values to the Go code as loosely-typed
  values, modelled by `DBVal`; a `VARCHAR[]` column arrives as an array of
  strings, a `FLOAT[768]` column as an array of float32s, and a `JSON`
  column as its stored text.
-/

namespace Engram

/-- A `float32` value: either a finite value (idealized as a rational) or one
of the non-finite IEEE values.  `encoding/json` refuses to marshal the
non-finite values. -/
inductive F32
  | finite (val : ℚ)
  | nan
  | posInf
  | negInf
deriving DecidableEq

/-- Whether `json.Marshal` can serialize this float32 value. -/
def F32.isFinite : F32 → Bool
  | .finite _ => true
  | _ => false

/-- The fixed embedding dimensionality hardcoded in the schema
(`embedding FLOAT[768]`) and in the query-vector cast (`::FLOAT[768]`). -/
def embeddingDim : Nat := 768

/-- `models.Episode` (internal/models/episode.go).  Go slices that are `nil`
or empty are both modelled by `[]` (the store only ever inspects their
length); an absent `Metadata` is the empty string, absent times are `none`,
and a zero `CreatedAt` is `0`. -/
structure Episode where
  id : String
  content : String
  name : String
  source : String
  sourceModel : String
  sourceDescription : String
  groupID : String
  tags : List String
  embedding : List F32
  createdAt : Int
  validAt : Option Int
  expiredAt : Option Int
  metadata : String
deriving DecidableEq

/-- `models.SearchParams`. -/
structure SearchParams where
  query : String
  queryEmbedding : List F32
  groupID : String
  maxResults : Int
  before : Option Int
  after : Option Int
  tags : List String
  source : String
  includeExpired : Bool
deriving DecidableEq

/-- `models.UpdateParams`: the three optional (pointer) fields. -/
structure UpdateParams where
  tags : Option (List String)
  expiredAt : Option Int
  metadata : Option String
deriving DecidableEq

/-- One stored row of the `episodes` table.  `tags`, `embedding`, `valid_at`,
`expired_at` and `metadata` are nullable columns (`none` is SQL NULL). -/
structure Row where
  id : String
  content : String
  name : String
  source : String
  sourceModel : String
  sourceDescription : String
  groupID : String
  tags : Option (List String)
  embedding : Option (List F32)
  createdAt : Int
  validAt : Option Int
  expiredAt : Option Int
  metadata : Option String
deriving DecidableEq

/-- The distinguishable errors the store surfaces (`fmt.Errorf` messages in
the source, engine-raised errors for the cast/constraint failures). -/
inductive StoreError
  | duplicateKey
  | embeddingCastError
  | embeddingDimMismatch
  | metadataCastError
  | queryEmbeddingDimMismatch
  | notFound (id : String)
  | noUpdatesProvided
deriving DecidableEq

/-- A loosely-typed value as handed to `sql.Row.Scan` by the driver
(Go `interface{}`).  `varr` is the `[]interface{}` shape, `vstrs` the
`[]string` shape and `vf32s` the `[]float32` shape handled by the decoding
switches in `scanEpisode`/`scanEpisodes`. -/
inductive DBVal
  | vnull
  | vstr (s : String)
  | vint (n : Int)
  | vf32 (f : F32)
  | varr (xs : List DBVal)
  | vstrs (xs : List String)
  | vf32s (xs : List F32)

/-- Tag decoding in `scanEpisode`: a non-null `[]interface{}` is copied
element-wise, substituting the zero value `""` for any element that is not a
string; a `[]string` is taken as is; any other non-null shape leaves the
tags `nil`.  Decoding never fails. -/
def scanTags : DBVal → List String
  | .varr xs => xs.map fun v => match v with | .vstr s => s | _ => ""
  | .vstrs xs => xs
  | _ => []

/-- Embedding decoding in `scanEpisode`: a non-null `[]interface{}` is copied
element-wise, substituting the zero value `0.0` for any element that is not a
float32; a `[]float32` is taken as is; any other non-null shape leaves the
embedding `nil`.  Decoding never fails. -/
def scanEmbedding : DBVal → List F32
  | .varr xs => xs.map fun v => match v with | .vf32 f => f | _ => .finite 0
  | .vf32s xs => xs
  | _ => []

/-- Metadata decoding in `scanEpisode`: text is returned verbatim (under the
driver model the `JSON` column arrives as its stored text); NULL or an
unhandled shape leaves the metadata empty. -/
def scanMetadata : DBVal → String
  | .vstr s => s
  | _ => ""

/-- How the driver presents the stored `tags VARCHAR[]` column to `Scan`. -/
def rawTags : Option (List String) → DBVal
  | none => .vnull
  | some ts => .varr (ts.map .vstr)

/-- How the driver presents the stored `embedding FLOAT[768]` column. -/
def rawEmbedding : Option (List F32) → DBVal
  | none => .vnull
  | some vs => .varr (vs.map .vf32)

/-- How the driver presents the stored `metadata JSON` column. -/
def rawMetadata : Option String → DBVal
  | none => .vnull
  | some s => .vstr s

/-- `scanEpisode`: reconstruct a `models.Episode` from a scanned row. -/
def scanEpisode (r : Row) : Episode :=
  { id := r.id
    content := r.content
    name := r.name
    source := r.source
    sourceModel := r.sourceModel
    sourceDescription := r.sourceDescription
    groupID := r.groupID
    tags := scanTags (rawTags r.tags)
    embedding := scanEmbedding (rawEmbedding r.embedding)
    createdAt := r.createdAt
    validAt := r.validAt
    expiredAt := r.expiredAt
    metadata := scanMetadata (rawMetadata r.metadata) }

/-- The default assignments at the top of `InsertEpisode` (they mutate the
caller's episode in place, so the assigned id is observable). -/
def assignDefaults (freshId : String) (now : Int) (ep : Episode) : Episode :=
  { ep with
    id := if ep.id = "" then freshId else ep.id
    createdAt := if ep.createdAt = 0 then now else ep.createdAt
    groupID := if ep.groupID = "" then "default" else ep.groupID }

/-- The column values bound by `InsertEpisode`'s INSERT statement: empty
tags/embedding/metadata are bound as SQL NULL, non-empty ones as their
serialized collections. -/
def encodeRow (ep : Episode) : Row :=
  { id := ep.id
    content := ep.content
    name := ep.name
    source := ep.source
    sourceModel := ep.sourceModel
    sourceDescription := ep.sourceDescription
    groupID := ep.groupID
    tags := if ep.tags.length > 0 then some ep.tags else none
    embedding := if ep.embedding.length > 0 then some ep.embedding else none
    createdAt := ep.createdAt
    validAt := ep.validAt
    expiredAt := ep.expiredAt
    metadata := if ep.metadata ≠ "" then some ep.metadata else none }

/-- `Store.InsertEpisode`.  `freshId` models `uuid.New().String()` and `now`
models `time.Now()`.  The Go side assigns defaults (mutating the caller's
episode, returned here alongside the new table contents), serializes the
collections (empty ones become SQL NULL) and executes the INSERT; the engine
side rejects a duplicate primary key, any embedding payload that does not
cast to `FLOAT[768]` (a failed `json.Marshal` is silently ignored by the Go
code — the `_` in `embeddingData, _ := json.Marshal(...)` — so the engine
then receives an empty string, which also fails the cast), and any non-NULL
metadata string rejected by the `metadata JSON` column's VARCHAR→JSON cast.
`jsonValid` is the engine's JSON-syntax validation, kept abstract like its
cosine function. -/
def InsertEpisode (jsonValid : String → Bool) (freshId : String) (now : Int)
    (db : List Row) (ep : Episode) : Except StoreError (List Row × Episode) :=
  let ep' : Episode := assignDefaults freshId now ep
  let row : Row := encodeRow ep'
  if row.embedding.any fun v => ¬ v.all F32.isFinite then
    .error .embeddingCastError
  else if row.embedding.any fun v => v.length ≠ embeddingDim then
    .error .embeddingDimMismatch
  else if row.metadata.any fun s => ¬ jsonValid s then
    .error .metadataCastError
  else if db.any fun r => r.id = ep'.id then
    .error .duplicateKey
  else
    .ok (db ++ [row], ep')

/-- The SET clause of `Store.UpdateEpisode` applied to one matched row:
each supplied field overwrites the column, the rest are untouched. -/
def applyUpdate (p : UpdateParams) (r : Row) : Row :=
  { r with
    tags := match p.tags with | some ts => some ts | none => r.tags
    expiredAt := match p.expiredAt with | some t => some t | none => r.expiredAt
    metadata := match p.metadata with | some m => some m | none => r.metadata }

/-- `Store.UpdateEpisode`: reject an empty parameter set before touching the
store; otherwise run the UPDATE and report `NotFound` when the affected-row
count is zero. -/
def UpdateEpisode (db : List Row) (id : String) (p : UpdateParams) :
    Except StoreError (List Row) :=
  if p.tags.isNone && p.expiredAt.isNone && p.metadata.isNone then
    .error .noUpdatesProvided
  else
    let updated := db.map fun r => if r.id = id then applyUpdate p r else r
    let affected := db.countP fun r => r.id = id
    if affected = 0 then .error (.notFound id)
    else .ok updated

/-- The WHERE clause assembled by `Store.Search`: every condition the Go code
appends is conjoined.  `list_contains(NULL, t)` is SQL NULL, hence not true,
so a row with NULL tags never satisfies a tag condition. -/
def matchesFilters (now : Int) (p : SearchParams) (r : Row) : Bool :=
  (p.query = "" || r.embedding.isSome)
    && (p.groupID = "" || r.groupID = p.groupID)
    && (match p.before with | none => true | some b => r.createdAt < b)
    && (match p.after with | none => true | some a => r.createdAt > a)
    && (p.includeExpired || match r.expiredAt with | none => true | some e => e > now)
    && (p.source = "" || r.source = p.source)
    && (p.tags.all fun t => match r.tags with | none => false | some ts => ts.contains t)

/-- Ordering key for semantic ranking: the engine evaluates
`array_cosine_similarity(embedding, query)`, which is NULL when the stored
embedding is NULL. -/
def simKey (sim : List F32 → List F32 → ℚ) (q : List F32) (r : Row) : Option ℚ :=
  r.embedding.map fun e => sim e q

/-- NULLS-LAST comparison on similarity scores for a descending sort:
`none` (SQL NULL) is below every score. -/
def oleQ : Option ℚ → Option ℚ → Prop
  | none, _ => True
  | some _, none => False
  | some a, some b => a ≤ b

instance : DecidableRel oleQ := fun x y =>
  match x, y with
  | none, _ => .isTrue trivial
  | some _, none => .isFalse id
  | some a, some b => inferInstanceAs (Decidable (a ≤ b))

/-- `ORDER BY array_cosine_similarity(...) DESC` as a relation on rows. -/
def simDesc (sim : List F32 → List F32 → ℚ) (q : List F32) (a b : Row) : Prop :=
  oleQ (simKey sim q b) (simKey sim q a)

instance (sim : List F32 → List F32 → ℚ) (q : List F32) :
    DecidableRel (simDesc sim q) := fun x y =>
  inferInstanceAs (Decidable (oleQ (simKey sim q y) (simKey sim q x)))

/-- `ORDER BY created_at DESC` as a relation on rows. -/
def createdDesc (a b : Row) : Prop := b.createdAt ≤ a.createdAt

instance : DecidableRel createdDesc := fun a b =>
  inferInstanceAs (Decidable (b.createdAt ≤ a.createdAt))

/-- `LIMIT`: `maxResults` when positive, else the default 10. -/
def searchLimit (p : SearchParams) : Nat :=
  if p.maxResults > 0 then p.maxResults.toNat else 10

/-- `Store.Search`.  The filtered rows are ordered by descending cosine
similarity when a query embedding is present, serializes and casts
successfully; by `created_at DESC` when `json.Marshal` of the query
embedding fails (the logged fallback) or when no query embedding is given.
The hardcoded `::FLOAT[768]` cast of the serialized query vector fails for
any other length, failing the whole query.  `sim` is the engine's
cosine-similarity function, kept abstract. -/
def Search (now : Int) (sim : List F32 → List F32 → ℚ) (db : List Row)
    (p : SearchParams) : Except StoreError (List Episode) :=
  let rows := db.filter (matchesFilters now p)
  if p.queryEmbedding.length > 0 then
    if p.queryEmbedding.all F32.isFinite then
      if p.queryEmbedding.length = embeddingDim then
        .ok (((rows.insertionSort (simDesc sim p.queryEmbedding)).take
          (searchLimit p)).map scanEpisode)
      else .error .queryEmbeddingDimMismatch
    else
      .ok (((rows.insertionSort createdDesc).take (searchLimit p)).map scanEpisode)
  else
    .ok (((rows.insertionSort createdDesc).take (searchLimit p)).map scanEpisode)

/-! ## MCP tool handlers (package `mcp`, server.go)

The handlers are modelled from the point where the tool arguments have been
unmarshalled (JSON/RFC3339 parsing is upstream of everything the claims are
about; a failed `valid_at`/`before`/`after` parse simply leaves the field
`none`, as in the source).  `mcp.NewToolResultError` is the `Except.error`
variant of the handler's result, `mcp.NewToolResultText` the `Except.ok`
variant.  The embedder call `s.embedder.Generate(embedCtx, ...)` is a
parameter `embResult`: `.error msg` covers every failure or timeout of the
Embedding Gateway. -/

/-- Arguments of the `add_memory` tool after unmarshalling. -/
structure AddMemoryParams where
  content : String
  name : String
  source : String
  sourceModel : String
  sourceDescription : String
  groupID : String
  tags : List String
  validAt : Option Int
  metadata : String
deriving DecidableEq

/-- `handleAddMemory`: on an embedder failure the error is logged and `emb`
is set to `nil`; the episode is then inserted either way.  Returns the tool
result (the assigned id on success) and the table contents afterwards. -/
def handleAddMemory (jsonValid : String → Bool) (freshId : String) (now : Int)
    (embResult : Except String (List F32)) (db : List Row)
    (p : AddMemoryParams) : Except String String × List Row :=
  let emb : List F32 := match embResult with | .error _ => [] | .ok v => v
  let ep : Episode :=
    { id := ""
      content := p.content
      name := p.name
      source := p.source
      sourceModel := p.sourceModel
      sourceDescription := p.sourceDescription
      groupID := p.groupID
      tags := p.tags
      embedding := emb
      createdAt := 0
      validAt := p.validAt
      expiredAt := none
      metadata := p.metadata }
  match InsertEpisode jsonValid freshId now db ep with
  | .error _ => (.error "failed to store episode", db)
  | .ok (db', ep') => (.ok ep'.id, db')

/-- Arguments of the `search` tool after unmarshalling. -/
structure SearchToolParams where
  query : String
  groupID : String
  maxResults : Int
  before : Option Int
  after : Option Int
  tags : List String
  source : String
  includeExpired : Bool
deriving DecidableEq

/-- `handleSearch`: the embedder is consulted only for a non-empty query
text; on failure the warning is logged and `queryEmbedding` stays `nil`, so
the store search falls back to temporal ordering. -/
def handleSearch (now : Int) (sim : List F32 → List F32 → ℚ)
    (embResult : Except String (List F32)) (db : List Row)
    (p : SearchToolParams) : Except String (List Episode) :=
  let queryEmbedding : List F32 :=
    if p.query ≠ "" then
      match embResult with | .error _ => [] | .ok v => v
    else []
  let sp : SearchParams :=
    { query := p.query
      queryEmbedding := queryEmbedding
      groupID := p.groupID
      maxResults := p.maxResults
      before := p.before
      after := p.after
      tags := p.tags
      source := p.source
      includeExpired := p.includeExpired }
  match Search now sim db sp with
  | .ok eps => .ok eps
  | .error _ => .error "search failed"

/-! ## Schema migration (`Store.migrate`)

The migration operates on the whole `episodes` table, including its legacy
timezone-naive timestamps, so it gets its own row type carrying tagged
timestamp values. -/

/-- A stored timestamp value: timezone-naive (legacy `TIMESTAMP`) or
timezone-aware (`TIMESTAMPTZ`), carrying the instant it denotes. -/
inductive TSVal
  | naive (t : Int)
  | aware (t : Int)
deriving DecidableEq

/-- The instant a stored timestamp denotes. -/
def TSVal.instant : TSVal → Int
  | .naive t => t
  | .aware t => t

/-- The `::TIMESTAMPTZ` cast used in the migration's INSERT..SELECT: the
value becomes timezone-aware, denoting the same instant. -/
def castTZ : TSVal → TSVal
  | .naive t => .aware t
  | .aware t => .aware t

/-- A row as copied by the migration (all thirteen columns of the SELECT
list; the three timestamp columns are cast). -/
structure MRow where
  id : String
  content : String
  name : String
  source : String
  sourceModel : String
  sourceDescription : String
  groupID : String
  tags : Option (List String)
  embedding : Option (List F32)
  createdAt : TSVal
  validAt : Option TSVal
  expiredAt : Option TSVal
  metadata : Option String
deriving DecidableEq

/-- The `episodes` table as the migration sees it: the
`information_schema.columns` type of `created_at`, the rows, and the names
of the secondary indexes currently defined on the table. -/
structure MTable where
  createdAtType : String
  rows : List MRow
  indexes : List String
deriving DecidableEq

/-- The four secondary indexes recreated by the migration (`expired_at` is
deliberately not indexed; see the schema comment about the DuckDB
limitation with UPDATE on indexed TIMESTAMP columns). -/
def migrationIndexes : List String :=
  ["idx_episodes_created_at", "idx_episodes_group_id",
   "idx_episodes_valid_at", "idx_episodes_source"]

/-- The per-row effect of the migration's `INSERT INTO episodes_new SELECT
id, content, ..., created_at::TIMESTAMPTZ, valid_at::TIMESTAMPTZ,
expired_at::TIMESTAMPTZ, metadata FROM episodes`. -/
def castMRow (r : MRow) : MRow :=
  { r with
    createdAt := castTZ r.createdAt
    validAt := r.validAt.map castTZ
    expiredAt := r.expiredAt.map castTZ }

/-- `Store.migrate`: when the `information_schema` lookup fails (no table),
the migration is skipped; when `created_at` is still `TIMESTAMP`, the shadow
table `episodes_new` is created with the timezone-aware schema, all rows are
copied with casts, the old table is dropped (which also drops its indexes),
the shadow table is renamed into place and the four secondary indexes are
recreated; otherwise nothing happens. -/
def migrate : Option MTable → Option MTable
  | none => none
  | some t =>
    if t.createdAtType = "TIMESTAMP" then
      some { createdAtType := "TIMESTAMP WITH TIME ZONE"
             rows := t.rows.map castMRow
             indexes := migrationIndexes }
    else some t

/-! ## Helper lemmas -/

/-- Decoding the driver representation of stored tags gives them back. -/
theorem scanTags_rawTags_some (ts : List String) :
    scanTags (rawTags (some ts)) = ts := by
  induction ts with
  | nil => rfl
  | cons a l ih => simpa [scanTags, rawTags] using congrArg (a :: ·) ih

theorem oleQ_total (x y : Option ℚ) : oleQ x y ∨ oleQ y x := by
  match x, y with
  | none, _ => exact Or.inl trivial
  | some a, none => exact Or.inr trivial
  | some a, some b => exact (le_total a b).imp id id

theorem oleQ_trans {x y z : Option ℚ} (h₁ : oleQ x y) (h₂ : oleQ y z) : oleQ x z := by
  match x, y, z with
  | none, _, _ => trivial
  | some a, none, _ => exact absurd h₁ id
  | some a, some b, none => exact absurd h₂ id
  | some a, some b, some c => exact le_trans h₁ h₂

instance : IsTotal Row createdDesc :=
  ⟨fun a b => (le_total b.createdAt a.createdAt).imp id id⟩

instance : IsTrans Row createdDesc :=
  ⟨fun _ _ _ h₁ h₂ => le_trans h₂ h₁⟩

instance (sim : List F32 → List F32 → ℚ) (q : List F32) :
    IsTotal Row (simDesc sim q) :=
  ⟨fun a b => (oleQ_total (simKey sim q b) (simKey sim q a)).imp id id⟩

instance (sim : List F32 → List F32 → ℚ) (q : List F32) :
    IsTrans Row (simDesc sim q) :=
  ⟨fun _ _ _ h₁ h₂ => oleQ_trans h₂ h₁⟩

/-- What a successful `InsertEpisode` did: the returned episode is the input
with defaults assigned, exactly one row was appended with the encoded
columns, the assigned id was fresh, a present embedding passed the
serialization and `FLOAT[768]` cast checks, and a non-empty metadata string
passed the `JSON` column's validation. -/
theorem insertEpisode_ok_destruct (jsonValid : String → Bool)
    (freshId : String) (now : Int)
    (db : List Row) (ep : Episode) (db' : List Row) (ep' : Episode)
    (h : InsertEpisode jsonValid freshId now db ep = .ok (db', ep')) :
    ep' = assignDefaults freshId now ep ∧
    db' = db ++ [encodeRow (assignDefaults freshId now ep)] ∧
    (∀ r ∈ db, r.id ≠ ep'.id) ∧
    (ep.embedding.length > 0 →
      ep.embedding.all F32.isFinite = true ∧
        ep.embedding.length = embeddingDim) ∧
    (ep.metadata ≠ "" → jsonValid ep.metadata = true) := by
  rw [InsertEpisode] at h
  split at h
  · simp at h
  · rename_i h1
    split at h
    · simp at h
    · rename_i h2
      split at h
      · simp at h
      · rename_i hm
        split at h
        · simp at h
        · rename_i h3
          rw [Except.ok.injEq, Prod.mk.injEq] at h
          obtain ⟨hdb, hep⟩ := h
          subst hep
          subst hdb
          refine ⟨rfl, rfl, ?_, ?_, ?_⟩
          · intro r hr
            simp only [List.any_eq_true, not_exists, not_and] at h3
            have := h3 r hr
            simpa using this
          · intro hpos
            have hemb : (encodeRow (assignDefaults freshId now ep)).embedding
                = some ep.embedding := by
              simp [encodeRow, assignDefaults, hpos]
            rw [hemb] at h1 h2
            simp only [Option.any_some, Bool.not_eq_true'] at h1
            simp only [Option.any_some, decide_eq_true_eq] at h2
            exact ⟨by simpa using h1, by omega⟩
          · intro hne
            have hmeta : (encodeRow (assignDefaults freshId now ep)).metadata
                = some ep.metadata := by
              simp [encodeRow, assignDefaults, hne]
            rw [hmeta] at hm
            simp only [Option.any_some, Bool.not_eq_true'] at hm
            simpa using hm

/-! ## Claim theorems -/

/-- C5: `UpdateEpisode` fails with `NoUpdatesProvided` when all three
optional fields are unset (without running any statement against the store);
with at least one field set it fails with `NotFound` exactly when the update
statement affects zero rows, i.e. when no stored row matches `id` — the
`NotFound` case is characterized by the affected-row count. -/
theorem update_error_semantics (db : List Row) (id : String) (p : UpdateParams) :
    (p.tags = none ∧ p.expiredAt = none ∧ p.metadata = none →
      UpdateEpisode db id p = .error .noUpdatesProvided)
    ∧ (¬(p.tags = none ∧ p.expiredAt = none ∧ p.metadata = none) →
        (UpdateEpisode db id p = .error (.notFound id) ↔
          (db.countP fun r => r.id = id) = 0))
    ∧ ((∀ r ∈ db, r.id ≠ id) →
        ¬(p.tags = none ∧ p.expiredAt = none ∧ p.metadata = none) →
        UpdateEpisode db id p = .error (.notFound id)) := by
  refine ⟨?_, ?_, ?_⟩
  · rintro ⟨h₁, h₂, h₃⟩
    simp [UpdateEpisode, h₁, h₂, h₃]
  · intro h
    have hg : (p.tags.isNone && p.expiredAt.isNone && p.metadata.isNone) = false := by
      rcases hh : p.tags with _ | t₁ <;> rcases hh₂ : p.expiredAt with _ | t₂ <;>
        rcases hh₃ : p.metadata with _ | t₃ <;> simp_all
    rw [UpdateEpisode, hg]
    simp only [Bool.false_eq_true, if_false]
    by_cases hc : (db.countP fun r => r.id = id) = 0 <;> simp [hc]
  · intro hnone h
    have hg : (p.tags.isNone && p.expiredAt.isNone && p.metadata.isNone) = false := by
      rcases hh : p.tags with _ | t₁ <;> rcases hh₂ : p.expiredAt with _ | t₂ <;>
        rcases hh₃ : p.metadata with _ | t₃ <;> simp_all
    have hc : (db.countP fun r => r.id = id) = 0 := by
      rw [List.countP_eq_zero]
      intro r hr
      simpa using hnone r hr
    rw [UpdateEpisode, hg]
    simp [hc]

/-- C5 witness. -/
theorem update_error_semantics_witness :
    UpdateEpisode [] "e1" { tags := none, expiredAt := none, metadata := none }
        = .error .noUpdatesProvided
    ∧ UpdateEpisode [] "e1" { tags := some ["t"], expiredAt := none, metadata := none }
        = .error (.notFound "e1") := by
  constructor
  · exact (update_error_semantics [] "e1"
      { tags := none, expiredAt := none, metadata := none }).1 ⟨rfl, rfl, rfl⟩
  · exact (update_error_semantics [] "e1"
      { tags := some ["t"], expiredAt := none, metadata := none }).2.2
      (by intro r hr; simp at hr) (by simp)

/-- C6: a successful `UpdateEpisode` is a sparse patch: rows with a
different id are untouched, and on the matched row every field other than
the supplied ones — including content, source, group, embedding, creation
time and the unsupplied updatable fields — is unchanged. -/
theorem update_sparse_patch_frame (db db' : List Row) (id : String)
    (p : UpdateParams) (h : UpdateEpisode db id p = .ok db') :
    db'.length = db.length ∧
    ∀ (i : Nat) (r : Row), db[i]? = some r →
      ∃ r', db'[i]? = some r' ∧
        (r.id ≠ id → r' = r) ∧
        (r.id = id →
          r'.content = r.content ∧ r'.name = r.name ∧ r'.source = r.source ∧
          r'.sourceModel = r.sourceModel ∧
          r'.sourceDescription = r.sourceDescription ∧
          r'.groupID = r.groupID ∧ r'.embedding = r.embedding ∧
          r'.createdAt = r.createdAt ∧ r'.validAt = r.validAt ∧
          (p.tags = none → r'.tags = r.tags) ∧
          (p.expiredAt = none → r'.expiredAt = r.expiredAt) ∧
          (p.metadata = none → r'.metadata = r.metadata)) := by
  have hdb' : db' = db.map fun r => if r.id = id then applyUpdate p r else r := by
    rw [UpdateEpisode] at h
    split at h
    · exact absurd h (by simp)
    · dsimp only at h
      split at h
      · exact absurd h (by simp)
      · simp only [Except.ok.injEq] at h
        exact h.symm
  subst hdb'
  refine ⟨by simp, ?_⟩
  intro i r hr
  refine ⟨if r.id = id then applyUpdate p r else r, ?_, ?_, ?_⟩
  · simp [List.getElem?_map, hr]
  · intro hne
    simp [hne]
  · intro heq
    simp only [heq, if_pos rfl]
    refine ⟨rfl, rfl, rfl, rfl, rfl, rfl, rfl, rfl, rfl, ?_, ?_, ?_⟩
    · intro ht; simp [applyUpdate, ht]
    · intro ht; simp [applyUpdate, ht]
    · intro ht; simp [applyUpdate, ht]

/-- C6 witness: updating only the tags of a stored row leaves its other
fields (metadata, expiration, content, …) unchanged. -/
theorem update_sparse_patch_frame_witness :
    ∃ db', UpdateEpisode
        [{ id := "e1", content := "c", name := "", source := "s",
           sourceModel := "", sourceDescription := "", groupID := "default",
           tags := some ["old"], embedding := none, createdAt := 3,
           validAt := none, expiredAt := some 9, metadata := some "m" }]
        "e1" { tags := some ["new"], expiredAt := none, metadata := none }
        = .ok db'
      ∧ db'.length = 1 := by
  refine ⟨_, rfl, ?_⟩
  have := update_sparse_patch_frame
    [{ id := "e1", content := "c", name := "", source := "s",
       sourceModel := "", sourceDescription := "", groupID := "default",
       tags := some ["old"], embedding := none, createdAt := 3,
       validAt := none, expiredAt := some 9, metadata := some "m" }]
    _ "e1" { tags := some ["new"], expiredAt := none, metadata := none } rfl
  exact this.1.trans rfl

/-- C9: a successful insert persists an empty tags collection and an empty
embedding as SQL NULL — the stored row never holds an empty array for
either column — while non-empty collections are stored as their array
values. -/
theorem insert_empty_collections_null (jsonValid : String → Bool)
    (freshId : String) (now : Int)
    (db : List Row) (ep : Episode) (db' : List Row) (ep' : Episode)
    (h : InsertEpisode jsonValid freshId now db ep = .ok (db', ep')) :
    ∃ r, db' = db ++ [r] ∧
      r.tags = (if ep.tags = [] then none else some ep.tags) ∧
      r.embedding = (if ep.embedding = [] then none else some ep.embedding) ∧
      r.tags ≠ some [] ∧ r.embedding ≠ some [] := by
  obtain ⟨-, hdb, -, -, -⟩ :=
    insertEpisode_ok_destruct jsonValid freshId now db ep db' ep' h
  refine ⟨_, hdb, ?_, ?_, ?_, ?_⟩
  · rcases ht : ep.tags with _ | ⟨a, l⟩ <;>
      simp [encodeRow, assignDefaults, ht]
  · rcases he : ep.embedding with _ | ⟨a, l⟩ <;>
      simp [encodeRow, assignDefaults, he]
  · rcases ht : ep.tags with _ | ⟨a, l⟩ <;>
      simp [encodeRow, assignDefaults, ht]
  · rcases he : ep.embedding with _ | ⟨a, l⟩ <;>
      simp [encodeRow, assignDefaults, he]

/-- C9 witness: inserting an episode with no tags and no embedding stores
NULL for both; inserting one with tags stores the tag array. -/
theorem insert_empty_collections_null_witness :
    ∃ r, (InsertEpisode (fun _ => true) "id1" 7 []
        { id := "", content := "c", name := "", source := "s",
          sourceModel := "", sourceDescription := "", groupID := "",
          tags := [], embedding := [], createdAt := 0, validAt := none,
          expiredAt := none, metadata := "" }).toOption.map Prod.fst
        = some ([] ++ [r])
      ∧ r.tags = none ∧ r.embedding = none := by
  obtain ⟨r, hdb, ht, he, -, -⟩ :=
    insert_empty_collections_null (fun _ => true) "id1" 7 []
    { id := "", content := "c", name := "", source := "s",
      sourceModel := "", sourceDescription := "", groupID := "",
      tags := [], embedding := [], createdAt := 0, validAt := none,
      expiredAt := none, metadata := "" } _ _ rfl
  exact ⟨r, by rw [← hdb]; rfl, by simpa using ht, by simpa using he⟩

/-- C10: the row decoders never fail on a non-null array with unexpected
element types: a tags array is decoded element-wise with the zero value `""`
substituted for every non-string element, and an embedding array with the
zero value `0.0` substituted for every non-float32 element, preserving
length — so decoded episodes can carry silently zero-filled entries. -/
theorem scan_zero_fill_total :
    (∀ (xs : List DBVal) (i : Nat),
      (scanTags (DBVal.varr xs)).get? i =
        (xs.get? i).map fun v => match v with | DBVal.vstr s => s | _ => "")
    ∧ (∀ (xs : List DBVal) (i : Nat),
      (scanEmbedding (DBVal.varr xs)).get? i =
        (xs.get? i).map fun v =>
          match v with | DBVal.vf32 f => f | _ => F32.finite 0)
    ∧ scanTags (DBVal.varr [DBVal.vstr "a", DBVal.vint 3, DBVal.vstr "b"])
        = ["a", "", "b"]
    ∧ scanEmbedding
          (DBVal.varr [DBVal.vf32 (F32.finite 2), DBVal.vstr "x", DBVal.vnull])
        = [F32.finite 2, F32.finite 0, F32.finite 0] := by
  refine ⟨?_, ?_, rfl, rfl⟩ <;> intro xs i <;>
    simp [scanTags, scanEmbedding, List.get?_eq_getElem?, List.getElem?_map]

/-- Every episode in a successful search result decodes a row that passed
the assembled WHERE clause. -/
theorem search_ok_mem_filter (now : Int) (sim : List F32 → List F32 → ℚ)
    (db : List Row) (p : SearchParams) (l : List Episode) (e : Episode)
    (h : Search now sim db p = .ok l) (he : e ∈ l) :
    ∃ r ∈ db.filter (matchesFilters now p), e = scanEpisode r := by
  rw [Search] at h
  have step : ∀ rel : Row → Row → Prop, ∀ inst : DecidableRel rel,
      (Except.ok ((((db.filter (matchesFilters now p)).insertionSort rel).take
          (searchLimit p)).map scanEpisode) : Except StoreError (List Episode))
        = Except.ok l →
      ∃ r ∈ db.filter (matchesFilters now p), e = scanEpisode r := by
    intro rel inst hh
    rw [Except.ok.injEq] at hh
    subst hh
    obtain ⟨r, hr, hre⟩ := List.mem_map.mp he
    refine ⟨r, ?_, hre.symm⟩
    have hr' := List.take_subset _ _ hr
    rwa [List.mem_insertionSort] at hr'
  split at h
  · split at h
    · split at h
      · exact step _ _ h
      · simp at h
    · exact step _ _ h
  · exact step _ _ h

/-- C7: tag filtering is conjunctive — an episode appears in a search result
only if its stored tags contain every requested tag; in particular, with
stored tag sets `{a,b}` and `{b}`, searching with `tags=[a,b]` returns only
the episode carrying both. -/
theorem search_tags_conjunction :
    (∀ (now : Int) (sim : List F32 → List F32 → ℚ) (db : List Row)
        (p : SearchParams) (l : List Episode) (e : Episode),
      Search now sim db p = .ok l → e ∈ l → ∀ t ∈ p.tags, t ∈ e.tags)
    ∧ Search 0 (fun _ _ => 0)
        [{ id := "ep-ab", content := "Alpha", name := "", source := "s",
           sourceModel := "", sourceDescription := "", groupID := "default",
           tags := some ["a", "b"], embedding := none, createdAt := 1,
           validAt := none, expiredAt := none, metadata := none },
         { id := "ep-b", content := "Beta", name := "", source := "s",
           sourceModel := "", sourceDescription := "", groupID := "default",
           tags := some ["b"], embedding := none, createdAt := 2,
           validAt := none, expiredAt := none, metadata := none }]
        { query := "", queryEmbedding := [], groupID := "", maxResults := 10,
          before := none, after := none, tags := ["a", "b"], source := "",
          includeExpired := false }
        = .ok [scanEpisode
            { id := "ep-ab", content := "Alpha", name := "", source := "s",
              sourceModel := "", sourceDescription := "", groupID := "default",
              tags := some ["a", "b"], embedding := none, createdAt := 1,
              validAt := none, expiredAt := none, metadata := none }] := by
  constructor
  · intro now sim db p l e h he t ht
    obtain ⟨r, hrf, rfl⟩ := search_ok_mem_filter now sim db p l e h he
    have hm := List.of_mem_filter hrf
    rw [matchesFilters] at hm
    simp only [Bool.and_eq_true] at hm
    have htags := hm.2
    rw [List.all_eq_true] at htags
    have := htags t ht
    cases hrt : r.tags with
    | none => rw [hrt] at this; simp at this
    | some ts =>
      rw [hrt] at this
      simp at this
      simpa [scanEpisode, hrt, scanTags_rawTags_some] using this
  · rfl

/-- C7 witness. -/
theorem search_tags_conjunction_witness :
    ∀ t ∈ ["a", "b"], t ∈ (scanEpisode
      { id := "ep-ab", content := "Alpha", name := "", source := "s",
        sourceModel := "", sourceDescription := "", groupID := "default",
        tags := some ["a", "b"], embedding := none, createdAt := 1,
        validAt := none, expiredAt := none, metadata := none }).tags := by
  have h := search_tags_conjunction
  intro t ht
  exact h.1 0 (fun _ _ => 0) _ _ _ _ h.2 (by simp) t ht

/-- The invariant C8 asserts about the persisted state: every stored
embedding has the configured dimensionality. -/
def EmbeddingDimOK (db : List Row) : Prop :=
  ∀ r ∈ db, ∀ v, r.embedding = some v → v.length = embeddingDim

/-- C8: inserts preserve the fixed-dimension invariant on stored embeddings,
and an insert supplying a non-empty embedding of any other length is never
persisted silently — it fails with an error. -/
theorem embedding_dim_enforced (jsonValid : String → Bool)
    (freshId : String) (now : Int)
    (db : List Row) (ep : Episode) :
    (∀ db' ep', InsertEpisode jsonValid freshId now db ep = .ok (db', ep') →
      EmbeddingDimOK db → EmbeddingDimOK db')
    ∧ (ep.embedding ≠ [] → ep.embedding.length ≠ embeddingDim →
        ∃ err, InsertEpisode jsonValid freshId now db ep = .error err) := by
  constructor
  · intro db' ep' h hinv
    obtain ⟨-, hdb, -, hcond, -⟩ :=
      insertEpisode_ok_destruct jsonValid freshId now db ep db' ep' h
    subst hdb
    intro r hr v hv
    rcases List.mem_append.mp hr with hold | hnew
    · exact hinv r hold v hv
    · have hre : r = encodeRow (assignDefaults freshId now ep) := by
        simpa using hnew
      subst hre
      by_cases hpos : ep.embedding.length > 0
      · have : (encodeRow (assignDefaults freshId now ep)).embedding
            = some ep.embedding := by
          simp [encodeRow, assignDefaults, hpos]
        rw [this, Option.some.injEq] at hv
        subst hv
        exact (hcond hpos).2
      · have : (encodeRow (assignDefaults freshId now ep)).embedding = none := by
          simp [encodeRow, assignDefaults, hpos]
        rw [this] at hv
        exact absurd hv (by simp)
  · intro hne hdim
    have hpos : ep.embedding.length > 0 := List.length_pos.mpr hne
    have hrowemb : (encodeRow (assignDefaults freshId now ep)).embedding
        = some ep.embedding := by
      simp [encodeRow, assignDefaults, hpos]
    rw [InsertEpisode, hrowemb]
    simp only [Option.any_some]
    split_ifs with c1 c2 c3 c4
    · exact ⟨_, rfl⟩
    · exact ⟨_, rfl⟩
    · exact ⟨_, rfl⟩
    · exact ⟨_, rfl⟩
    · exact absurd (by simpa using hdim) c2

/-- C8 witness: inserting a 1-element embedding fails loudly, and a
successful insert with no embedding preserves the invariant on an empty
store. -/
theorem embedding_dim_enforced_witness :
    (∃ err, InsertEpisode (fun _ => true) "w1" 0 []
        { id := "", content := "c", name := "", source := "s",
          sourceModel := "", sourceDescription := "", groupID := "",
          tags := [], embedding := [F32.finite 1], createdAt := 0,
          validAt := none, expiredAt := none, metadata := "" }
        = .error err)
    ∧ ∀ db' ep', InsertEpisode (fun _ => true) "w1" 0 []
        { id := "", content := "c", name := "", source := "s",
          sourceModel := "", sourceDescription := "", groupID := "",
          tags := [], embedding := [], createdAt := 0,
          validAt := none, expiredAt := none, metadata := "" }
        = .ok (db', ep') → EmbeddingDimOK db' := by
  constructor
  · exact (embedding_dim_enforced (fun _ => true) "w1" 0 []
      { id := "", content := "c", name := "", source := "s",
        sourceModel := "", sourceDescription := "", groupID := "",
        tags := [], embedding := [F32.finite 1], createdAt := 0,
        validAt := none, expiredAt := none, metadata := "" }).2
      (by simp) (by simp [embeddingDim])
  · intro db' ep' h
    exact (embedding_dim_enforced (fun _ => true) "w1" 0 []
      { id := "", content := "c", name := "", source := "s",
        sourceModel := "", sourceDescription := "", groupID := "",
        tags := [], embedding := [], createdAt := 0,
        validAt := none, expiredAt := none, metadata := "" }).1 db' ep' h
      (by intro r hr; simp at hr)

/-- Inserting an episode with no embedding, empty-or-valid metadata and a
server-assigned fresh id succeeds. -/
theorem insertEpisode_no_embedding_ok (jsonValid : String → Bool)
    (freshId : String) (now : Int)
    (db : List Row) (ep : Episode) (hemb : ep.embedding = [])
    (hmeta : ep.metadata = "" ∨ jsonValid ep.metadata = true)
    (hid : ep.id = "") (hfresh : ∀ r ∈ db, r.id ≠ freshId) :
    InsertEpisode jsonValid freshId now db ep
      = .ok (db ++ [encodeRow (assignDefaults freshId now ep)],
             assignDefaults freshId now ep) := by
  have h1 : (encodeRow (assignDefaults freshId now ep)).embedding = none := by
    simp [encodeRow, assignDefaults, hemb]
  have hmc : ((encodeRow (assignDefaults freshId now ep)).metadata.any
        fun s => ¬ jsonValid s) = false := by
    rcases hmeta with hm | hm
    · simp [encodeRow, assignDefaults, hm]
    · by_cases hne : ep.metadata = ""
      · simp [encodeRow, assignDefaults, hne]
      · simp [encodeRow, assignDefaults, hne, hm]
  have hdup : (db.any fun r => r.id = (assignDefaults freshId now ep).id)
      = false := by
    rw [List.any_eq_false]
    intro r hr
    have hi : (assignDefaults freshId now ep).id = freshId := by
      simp [assignDefaults, hid]
    simpa [hi] using hfresh r hr
  rw [InsertEpisode, h1, hmc, hdup]
  simp

/-- C4 counterexample: a query embedding that is non-empty and serializes
successfully (one finite value) does not yield similarity-ordered results —
the hardcoded `::FLOAT[768]` cast of the serialized vector fails for a
1-dimensional vector, and the whole search errors instead. -/
theorem search_ordering_cex :
    Search 0 (fun _ _ => 0)
        [{ id := "r1", content := "c", name := "", source := "s",
           sourceModel := "", sourceDescription := "", groupID := "default",
           tags := none, embedding := some (List.replicate 768 (F32.finite 0)),
           createdAt := 1, validAt := none, expiredAt := none,
           metadata := none }]
        { query := "q", queryEmbedding := [F32.finite 1], groupID := "",
          maxResults := 10, before := none, after := none, tags := [],
          source := "", includeExpired := false }
      = .error .queryEmbeddingDimMismatch := by
  rfl

/-- C4 (amended): when a non-empty query embedding is supplied, serializes
successfully and has the configured dimensionality (768), the results are
the decoded rows ordered by descending similarity (rows without a stored
embedding, whose similarity is SQL NULL, ordered last); when serialization
of the query embedding fails, the search still succeeds with results
ordered by `created_at` descending; and with no query embedding at all the
results are ordered by `created_at` descending. -/
theorem search_ordering_policy (now : Int) (sim : List F32 → List F32 → ℚ)
    (db : List Row) (p : SearchParams) :
    (p.queryEmbedding ≠ [] → p.queryEmbedding.all F32.isFinite = true →
      p.queryEmbedding.length = embeddingDim →
      ∃ rows : List Row, Search now sim db p = .ok (rows.map scanEpisode) ∧
        rows.Sorted (simDesc sim p.queryEmbedding))
    ∧ (p.queryEmbedding ≠ [] → p.queryEmbedding.all F32.isFinite = false →
      ∃ eps, Search now sim db p = .ok eps ∧
        eps.Sorted fun a b => b.createdAt ≤ a.createdAt)
    ∧ (p.queryEmbedding = [] →
      ∃ eps, Search now sim db p = .ok eps ∧
        eps.Sorted fun a b => b.createdAt ≤ a.createdAt) := by
  have hmap : ∀ rows : List Row, rows.Sorted createdDesc →
      (rows.map scanEpisode).Sorted fun a b => b.createdAt ≤ a.createdAt := by
    intro rows hs
    exact List.Pairwise.map scanEpisode (fun a b h => h) hs
  refine ⟨?_, ?_, ?_⟩
  · intro hne hfin hlen
    have hpos : p.queryEmbedding.length > 0 := List.length_pos.mpr hne
    refine ⟨((db.filter (matchesFilters now p)).insertionSort
        (simDesc sim p.queryEmbedding)).take (searchLimit p), ?_, ?_⟩
    · rw [Search, if_pos hpos, if_pos hfin, if_pos hlen]
    · exact List.Pairwise.sublist (List.take_sublist _ _)
        (List.sorted_insertionSort _ _)
  · intro hne hfin
    have hpos : p.queryEmbedding.length > 0 := List.length_pos.mpr hne
    refine ⟨(((db.filter (matchesFilters now p)).insertionSort
        createdDesc).take (searchLimit p)).map scanEpisode, ?_, ?_⟩
    · rw [Search, if_pos hpos, if_neg (by simp [hfin])]
    · exact hmap _ (List.Pairwise.sublist (List.take_sublist _ _)
        (List.sorted_insertionSort _ _))
  · intro he
    refine ⟨(((db.filter (matchesFilters now p)).insertionSort
        createdDesc).take (searchLimit p)).map scanEpisode, ?_, ?_⟩
    · rw [Search, if_neg (by simp [he])]
    · exact hmap _ (List.Pairwise.sublist (List.take_sublist _ _)
        (List.sorted_insertionSort _ _))

/-- C4 witness: a finite 768-dim query vector gives similarity-ordered
results; a query vector containing NaN falls back to temporal ordering
without failing; no query vector gives temporal ordering. -/
theorem search_ordering_policy_witness :
    (∃ rows : List Row, Search 0 (fun _ _ => 0) []
        { query := "", queryEmbedding := List.replicate 768 (F32.finite 1),
          groupID := "", maxResults := 10, before := none, after := none,
          tags := [], source := "", includeExpired := false }
        = .ok (rows.map scanEpisode)
      ∧ rows.Sorted (simDesc (fun _ _ => 0) (List.replicate 768 (F32.finite 1))))
    ∧ (∃ eps, Search 0 (fun _ _ => 0) []
        { query := "", queryEmbedding := [F32.nan], groupID := "",
          maxResults := 10, before := none, after := none, tags := [],
          source := "", includeExpired := false }
        = .ok eps ∧ eps.Sorted fun a b => b.createdAt ≤ a.createdAt)
    ∧ (∃ eps, Search 0 (fun _ _ => 0) []
        { query := "", queryEmbedding := [], groupID := "", maxResults := 10,
          before := none, after := none, tags := [], source := "",
          includeExpired := false }
        = .ok eps ∧ eps.Sorted fun a b => b.createdAt ≤ a.createdAt) := by
  refine ⟨?_, ?_, ?_⟩
  · exact (search_ordering_policy 0 (fun _ _ => 0) [] _).1
      (List.length_pos.mp (by rw [List.length_replicate]; norm_num))
      (by
        rw [List.all_eq_true]
        intro x hx
        rw [List.eq_of_mem_replicate hx]
        rfl)
      (by rw [List.length_replicate]; rfl)
  · exact (search_ordering_policy 0 (fun _ _ => 0) [] _).2.1 (by simp) rfl
  · exact (search_ordering_policy 0 (fun _ _ => 0) [] _).2.2 rfl

/-- C1: a failure (or timeout) of the Embedding Gateway is never propagated
as a failure of `add_memory` or `search`: each handler behaves exactly as if
the embedder had produced nothing, so under the store's normal
insert-success conditions (fresh id, empty or engine-valid metadata) the
insert succeeds with a NULL stored embedding, and the search always
succeeds with results in temporal (`created_at` descending) order. -/
theorem embedder_failure_absorbed (jsonValid : String → Bool) (err : String)
    (freshId : String)
    (now : Int) (sim : List F32 → List F32 → ℚ) (db : List Row)
    (p : AddMemoryParams) (q : SearchToolParams)
    (hfresh : ∀ r ∈ db, r.id ≠ freshId)
    (hmeta : p.metadata = "" ∨ jsonValid p.metadata = true) :
    (handleAddMemory jsonValid freshId now (.error err) db p
        = handleAddMemory jsonValid freshId now (.ok []) db p
      ∧ ∃ r, handleAddMemory jsonValid freshId now (.error err) db p
            = (.ok freshId, db ++ [r])
          ∧ r.embedding = none)
    ∧ (handleSearch now sim (.error err) db q
        = handleSearch now sim (.ok []) db q
      ∧ ∃ eps, handleSearch now sim (.error err) db q = .ok eps
          ∧ eps.Sorted fun a b => b.createdAt ≤ a.createdAt) := by
  have hins := insertEpisode_no_embedding_ok jsonValid freshId now db
    { id := "", content := p.content, name := p.name, source := p.source,
      sourceModel := p.sourceModel, sourceDescription := p.sourceDescription,
      groupID := p.groupID, tags := p.tags, embedding := [],
      createdAt := 0, validAt := p.validAt, expiredAt := none,
      metadata := p.metadata } rfl hmeta rfl hfresh
  refine ⟨⟨rfl, ?_⟩, ⟨rfl, ?_⟩⟩
  · refine ⟨encodeRow (assignDefaults freshId now
      { id := "", content := p.content, name := p.name, source := p.source,
        sourceModel := p.sourceModel,
        sourceDescription := p.sourceDescription, groupID := p.groupID,
        tags := p.tags, embedding := [], createdAt := 0, validAt := p.validAt,
        expiredAt := none, metadata := p.metadata }), ?_, ?_⟩
    · rw [handleAddMemory, hins]
      rfl
    · simp [encodeRow, assignDefaults]
  · have hS : Search now sim db
        { query := q.query, queryEmbedding := [], groupID := q.groupID,
          maxResults := q.maxResults, before := q.before, after := q.after,
          tags := q.tags, source := q.source,
          includeExpired := q.includeExpired }
        = .ok ((((db.filter (matchesFilters now
            { query := q.query, queryEmbedding := [], groupID := q.groupID,
              maxResults := q.maxResults, before := q.before, after := q.after,
              tags := q.tags, source := q.source,
              includeExpired := q.includeExpired })).insertionSort
              createdDesc).take (searchLimit
            { query := q.query, queryEmbedding := [], groupID := q.groupID,
              maxResults := q.maxResults, before := q.before, after := q.after,
              tags := q.tags, source := q.source,
              includeExpired := q.includeExpired })).map scanEpisode) := by
      rw [Search, if_neg (by simp)]
    refine ⟨(((db.filter (matchesFilters now
        { query := q.query, queryEmbedding := [], groupID := q.groupID,
          maxResults := q.maxResults, before := q.before, after := q.after,
          tags := q.tags, source := q.source,
          includeExpired := q.includeExpired })).insertionSort
          createdDesc).take (searchLimit
        { query := q.query, queryEmbedding := [], groupID := q.groupID,
          maxResults := q.maxResults, before := q.before, after := q.after,
          tags := q.tags, source := q.source,
          includeExpired := q.includeExpired })).map scanEpisode, ?_, ?_⟩
    · rw [handleSearch]
      simp only [ite_self]
      rw [hS]
    · have hsorted : (((db.filter (matchesFilters now
          { query := q.query, queryEmbedding := [], groupID := q.groupID,
            maxResults := q.maxResults, before := q.before, after := q.after,
            tags := q.tags, source := q.source,
            includeExpired := q.includeExpired })).insertionSort
            createdDesc).take (searchLimit
          { query := q.query, queryEmbedding := [], groupID := q.groupID,
            maxResults := q.maxResults, before := q.before, after := q.after,
            tags := q.tags, source := q.source,
            includeExpired := q.includeExpired })).Sorted createdDesc :=
        List.Pairwise.sublist (List.take_sublist _ _)
          (List.sorted_insertionSort _ _)
      exact List.Pairwise.map scanEpisode (fun a b h => h) hsorted

/-- C1 witness. -/
theorem embedder_failure_absorbed_witness :
    (∃ r, handleAddMemory (fun _ => true) "fresh-1" 3
          (.error "gateway timeout") []
          { content := "c", name := "", source := "s", sourceModel := "",
            sourceDescription := "", groupID := "", tags := [],
            validAt := none, metadata := "" }
        = (.ok "fresh-1", [] ++ [r]) ∧ r.embedding = none)
    ∧ ∃ eps, handleSearch 3 (fun _ _ => 0) (.error "gateway timeout") []
          { query := "hello", groupID := "", maxResults := 10, before := none,
            after := none, tags := [], source := "", includeExpired := false }
        = .ok eps ∧ eps.Sorted fun a b => b.createdAt ≤ a.createdAt := by
  have h := embedder_failure_absorbed (fun _ => true) "gateway timeout"
    "fresh-1" 3
    (fun _ _ => 0) []
    { content := "c", name := "", source := "s", sourceModel := "",
      sourceDescription := "", groupID := "", tags := [],
      validAt := none, metadata := "" }
    { query := "hello", groupID := "", maxResults := 10, before := none,
      after := none, tags := [], source := "", includeExpired := false }
    (by intro r hr; simp at hr) (Or.inl rfl)
  exact ⟨h.1.2, h.2.2⟩

/-- C2 counterexample: running the migration on a legacy (timezone-naive)
store with two rows does preserve the rows, but it does not leave five
secondary indexes — only four are recreated, and no `expired_at` index
exists afterwards. -/
theorem migration_five_indexes_cex :
    migrate (some
      { createdAtType := "TIMESTAMP"
        rows := [{ id := "e1", content := "c1", name := "", source := "s",
                   sourceModel := "", sourceDescription := "",
                   groupID := "default", tags := none, embedding := none,
                   createdAt := .naive 5, validAt := none, expiredAt := none,
                   metadata := none },
                 { id := "e2", content := "c2", name := "", source := "s",
                   sourceModel := "", sourceDescription := "",
                   groupID := "default", tags := none, embedding := none,
                   createdAt := .naive 6, validAt := some (.naive 7),
                   expiredAt := none, metadata := none }]
        indexes := ["idx_episodes_created_at", "idx_episodes_group_id",
                    "idx_episodes_valid_at", "idx_episodes_source"] })
      = some
      { createdAtType := "TIMESTAMP WITH TIME ZONE"
        rows := [{ id := "e1", content := "c1", name := "", source := "s",
                   sourceModel := "", sourceDescription := "",
                   groupID := "default", tags := none, embedding := none,
                   createdAt := .aware 5, validAt := none, expiredAt := none,
                   metadata := none },
                 { id := "e2", content := "c2", name := "", source := "s",
                   sourceModel := "", sourceDescription := "",
                   groupID := "default", tags := none, embedding := none,
                   createdAt := .aware 6, validAt := some (.aware 7),
                   expiredAt := none, metadata := none }]
        indexes := migrationIndexes }
    ∧ "idx_episodes_expired_at" ∉ migrationIndexes := by
  exact ⟨rfl, by decide⟩

/-- C2 (amended): on every store whose `created_at` column is still the
legacy timezone-naive `TIMESTAMP`, the migration yields a table under the
timezone-aware schema with exactly the same number of rows; each row keeps
every non-timestamp column and each of its three timestamp columns becomes
timezone-aware denoting the same instant; afterwards exactly the four named
secondary indexes (created_at, group_id, valid_at, source) exist — the
`expired_at` index is deliberately omitted. -/
theorem migration_preserves_rows_four_indexes (t : MTable)
    (h : t.createdAtType = "TIMESTAMP") :
    ∃ t', migrate (some t) = some t' ∧
      t'.createdAtType = "TIMESTAMP WITH TIME ZONE" ∧
      t'.rows.length = t.rows.length ∧
      (∀ (i : Nat) (r : MRow), t.rows[i]? = some r →
        ∃ r', t'.rows[i]? = some r' ∧
          r'.createdAt = TSVal.aware r.createdAt.instant ∧
          r'.validAt = r.validAt.map (fun v => TSVal.aware v.instant) ∧
          r'.expiredAt = r.expiredAt.map (fun v => TSVal.aware v.instant) ∧
          r'.id = r.id ∧ r'.content = r.content ∧ r'.name = r.name ∧
          r'.source = r.source ∧ r'.sourceModel = r.sourceModel ∧
          r'.sourceDescription = r.sourceDescription ∧
          r'.groupID = r.groupID ∧ r'.tags = r.tags ∧
          r'.embedding = r.embedding ∧ r'.metadata = r.metadata) ∧
      t'.indexes = migrationIndexes := by
  have hcast : ∀ v : TSVal, castTZ v = TSVal.aware v.instant := by
    intro v; cases v <;> rfl
  refine ⟨_, by rw [migrate, if_pos h], rfl, by simp, ?_, rfl⟩
  intro i r hr
  refine ⟨castMRow r, ?_, ?_, ?_, ?_, rfl, rfl, rfl, rfl, rfl, rfl, rfl, rfl,
    rfl, rfl⟩
  · simp [List.getElem?_map, hr]
  · exact hcast r.createdAt
  · rcases hv : r.validAt with _ | v <;> simp [castMRow, hv, hcast]
  · rcases hv : r.expiredAt with _ | v <;> simp [castMRow, hv, hcast]

/-- C2 witness. -/
theorem migration_preserves_rows_four_indexes_witness :
    ∃ t', migrate (some
        { createdAtType := "TIMESTAMP"
          rows := [{ id := "w1", content := "c", name := "", source := "s",
                     sourceModel := "", sourceDescription := "",
                     groupID := "default", tags := none, embedding := none,
                     createdAt := .naive 11, validAt := none,
                     expiredAt := none, metadata := none }]
          indexes := ["idx_episodes_created_at"] })
        = some t'
      ∧ t'.rows.length = 1 ∧ t'.indexes = migrationIndexes := by
  obtain ⟨t', h1, -, h3, -, h5⟩ := migration_preserves_rows_four_indexes
    { createdAtType := "TIMESTAMP"
      rows := [{ id := "w1", content := "c", name := "", source := "s",
                 sourceModel := "", sourceDescription := "",
                 groupID := "default", tags := none, embedding := none,
                 createdAt := .naive 11, validAt := none,
                 expiredAt := none, metadata := none }]
      indexes := ["idx_episodes_created_at"] } rfl
  exact ⟨t', h1, h3.trans rfl, h5⟩

end Engram
